import Mathlib

/-!
Shallow embedding of the `gosample/sso` authentication core.

The Go sources embedded here are `src/unnamed/part_000` (user records,
IP checkers, the db-backed user handler, query-placeholder rewriting)
and `src/server/auth_handler.go` (the orchestrating `Auth` state
machine).

Modelling conventions:
* `time.Time` values are nanosecond counts as `Int`; the Go zero time
  (`IsZero`) is `Option.none`, so `lockedAt : Option Int`.
* `time.Duration` is an `Int` nanosecond count.
* IPv4 addresses are their 32-bit ordinals (`Nat < 2^32`); `net.IP`
  values that are not IPv4 are the `IP.v6` constructor, on which
  `To4()` yields nil.
* Go standard-library collaborators that this repository only calls
  (`net.ParseIP`, `net.ParseCIDR`, `json.Unmarshal` into `[]string`,
  `time.Parse`, the SQL driver, the signing-method registry) are
  passed in as explicit function parameters, so every theorem
  quantifies over their behaviour.
* `map[string]interface{}` row data is an association list
  `List (String × Value)` with `Value` covering the dynamic types the
  code inspects.
* Go errors are an inductive `AuthError`; each `errors.New` site in
  the embedded code gets its own constructor because Go compares
  sentinel errors by identity.
-/

namespace SSO

/-- A `net.IP` value as used by this code: either an IPv4 address
(its 32-bit big-endian ordinal) or a non-IPv4 address, for which
`To4()` returns nil. -/
inductive IP where
  | v4 (n : Nat)
  | v6
deriving DecidableEq, Repr

/-- `ip.To4()`: the 32-bit ordinal when the address is IPv4, nil
otherwise. -/
def IP.to4 : IP → Option Nat
  | .v4 n => some n
  | .v6 => none

/-- The `IPChecker` implementations reachable from this code:
`ipRange` (fields `start`,`end` of `part_000:102-104`; the second is
named `stop` here because `end` is a Lean keyword) and `*net.IPNet`
networks produced by `net.ParseCIDR` (base address and mask length). -/
inductive IPChecker where
  | range (start stop : Nat)
  | cidr (base len : Nat)
deriving DecidableEq, Repr

/-- `Contains` of the two checkers.

`range`: `part_000:106-113`: non-IPv4 probes are rejected, then the
source tests `r.start <= v || v <= r.end` — a disjunction, exactly as
written.

`cidr`: model of `(*net.IPNet).Contains` for an IPv4 network: mask the
probe with the network mask and compare with the (already masked)
network base; non-IPv4 probes do not match an IPv4 network. -/
def IPChecker.contains : IPChecker → IP → Bool
  | .range s e, ip =>
    match ip.to4 with
    | none => false
    | some v => s ≤ v || v ≤ e
  | .cidr base len, ip =>
    match ip.to4 with
    | none => false
    | some v => v / 2 ^ (32 - len) = base / 2 ^ (32 - len)

/-- `IPRange` (`part_000:115-125`): both endpoints must be IPv4,
otherwise an error; on success the `ipRange` checker. -/
def IPRange (start stop : IP) : Except String IPChecker :=
  match start.to4 with
  | none => .error "ip range does not support IPv6"
  | some s =>
    match stop.to4 with
    | none => .error "ip range does not support IPv6"
    | some e => .ok (.range s e)

/-- `IPRangeWith` (`part_000:127-137`): parse both endpoint strings
with `net.ParseIP` (passed in as `pIP`), then `IPRange`. -/
def IPRangeWith (pIP : String → Option IP) (start stop : String) :
    Except String IPChecker :=
  match pIP start with
  | none => .error (start ++ " is invalid address")
  | some s =>
    match pIP stop with
    | none => .error (stop ++ " is invalid address")
    | some e => IPRange s e

/-- Dynamic (`interface{}`) column values the embedded code inspects:
nil, `string`, `[]byte` (its text content), `time.Time`
(`none` = the zero time), and any other dynamic type (tagged, so type
assertions on it fail). -/
inductive Value where
  | null
  | str (s : String)
  | bytes (s : String)
  | time (t : Option Int)
  | other (tag : String)
deriving DecidableEq, Repr

/-- The error values this code returns, one constructor per distinct
Go error value (sentinel variables and `errors.New`/`fmt.Errorf`
sites). The locked branches of `CanUse` both return the single
sentinel `ErrUserLocked`, so there is exactly one `userLocked`
constructor. Store errors and non-sentinel verification errors carry
their message, wrapped so they stay distinct from every sentinel. -/
inductive AuthError where
  | usernameEmpty
  | userNotFound
  | mutiUsers
  | userInused
  | clientAddressInvalid (addr : String)
  | userIPBlocked
  | userLocked
  | passwordEmpty
  | passwordNotMatch
  | verifyFailed (msg : String)
  | storeError (msg : String)
deriving DecidableEq, Repr

/-- `UserImpl` (`part_000:34-41`). `lockedAt = none` models the zero
`time.Time`. -/
structure UserImpl where
  name : String
  password : String
  lockedAt : Option Int
  lockedTimeExpires : Int
  blockIPList : List IPChecker
  data : List (String × Value)
deriving DecidableEq, Repr

/-- The IP step of `UserImpl.CanUse` (`part_000:69-86`): skipped when
the block list is empty; otherwise the caller address is parsed
(failure is the address-invalid error) and must be contained in at
least one checker, else `ErrUserIPBlocked`. Returns the error produced
by this step, if any. -/
def UserImpl.ipCheck (pIP : String → Option IP) (u : UserImpl)
    (addr : String) : Option AuthError :=
  if u.blockIPList.isEmpty then none
  else
    match pIP addr with
    | none => some (.clientAddressInvalid addr)
    | some ip =>
      if u.blockIPList.any (fun c => c.contains ip) then none
      else some .userIPBlocked

/-- `UserImpl.CanUse` (`part_000:68-96`). The caller address `addr`
stands for the string `RealIP(req)` yields. After the IP step, a set
`lockedAt` fails with `ErrUserLocked` when the expiry is zero, and
again with `ErrUserLocked` when `now` is before `lockedAt + expiry`;
otherwise `(true, nil)`. -/
def UserImpl.canUse (pIP : String → Option IP) (u : UserImpl)
    (now : Int) (addr : String) : Bool × Option AuthError :=
  match u.ipCheck pIP addr with
  | some e => (false, some e)
  | none =>
    match u.lockedAt with
    | some t =>
      if u.lockedTimeExpires = 0 then (false, some .userLocked)
      else if now < t + u.lockedTimeExpires then (false, some .userLocked)
      else (true, none)
    | none => (true, none)

/-- `UserImpl.Data` (`part_000:98-100`): the captured attribute map,
verbatim. -/
def UserImpl.dataOf (u : UserImpl) : List (String × Value) := u.data

/-- The digits written by `fmt.Fprintf(buf, "$%d", i)`. -/
def dollar (n : Nat) : List Char := '$' :: Nat.toDigits 10 n

/-- The loop of `ReplacePlaceholders` (`part_000:445-471`) as a scan:
the Go loop finds the next `?`, copying everything before it verbatim;
`??` is copied as a single literal `?` without touching the counter,
while a single `?` becomes `$i` after `i++`. -/
def replacePlaceholdersAux : Nat → List Char → List Char
  | _, [] => []
  | i, '?' :: '?' :: cs => '?' :: replacePlaceholdersAux i cs
  | i, '?' :: cs => dollar (i + 1) ++ replacePlaceholdersAux (i + 1) cs
  | i, c :: cs => c :: replacePlaceholdersAux i cs

/-- `ReplacePlaceholders` (`part_000:445-471`): rewrite generic `?`
placeholders to numbered `$1, $2, …`, with `??` escaping to a literal
`?`. -/
def ReplacePlaceholders (sql : String) : String :=
  ⟨replacePlaceholdersAux 0 sql.data⟩

/-- The fallback layouts of `parseTime` (`part_000:434-436`):
`time.RFC3339Nano`, `time.RFC3339`, and the explicit third layout. -/
def timeLayouts : List String :=
  ["2006-01-02T15:04:05.999999999Z07:00",
   "2006-01-02T15:04:05Z07:00",
   "2006-01-02 15:04:05.999999999Z07:00"]

/-- `parseTime` (`part_000:426-443`): try the explicit layout when one
is configured, then each fallback layout in order; all failures yield
the zero time (`none`). `tparse` models `time.Parse`; it returns
`none` when parsing fails (the code treats a parsed zero time the same
as a failure, so `tparse` is modelled as producing non-zero times). -/
def parseTime (tparse : String → String → Option Int)
    (layout s : String) : Option Int :=
  match (if layout ≠ "" then tparse layout s else none) with
  | some t => some t
  | none => timeLayouts.firstM (fun l => tparse l s)

/-- The Go standard-library collaborators `dbUserHandler.toUser`
calls: `net.ParseIP`, `net.ParseCIDR` (network base and mask length on
success), `json.Unmarshal` into `[]string`, and `time.Parse`. -/
structure Ext where
  parseIP : String → Option IP
  parseCIDR : String → Option (Nat × Nat)
  jsonStringList : String → Option (List String)
  timeParse : String → String → Option Int

/-- `dbUserHandler` (`part_000:145-154`) minus the `*sql.DB` handle,
which is an external collaborator. -/
structure DbUserHandler where
  querySQL : String
  lockSQL : String
  passwordName : String
  blockIPList : String
  lockedFieldName : String
  lockedTimeExpires : Int
  lockedTimeLayout : String
deriving DecidableEq, Repr

/-- The entry loop of the block-list branch of `toUser`
(`part_000:315-347`): trim each entry, skip empties; an entry with a
dash is split and must give exactly two parts fed to `IPRangeWith`; an
entry with a slash goes through `net.ParseCIDR`; anything else is a
single address, `IPRangeWith s s`. Checkers are appended in entry
order; any malformed entry aborts with a mapping error. -/
def parseBlockList (pIP : String → Option IP)
    (parseCIDR : String → Option (Nat × Nat)) :
    List String → Except String (List IPChecker)
  | [] => .ok []
  | s0 :: rest =>
    let s := s0.trim
    if s = "" then parseBlockList pIP parseCIDR rest
    else if s.contains '-' then
      match s.splitOn "-" with
      | [a, b] =>
        match IPRangeWith pIP a b with
        | .error _ => .error ("value isn't invalid ip range - " ++ s)
        | .ok c =>
          match parseBlockList pIP parseCIDR rest with
          | .error e => .error e
          | .ok cs => .ok (c :: cs)
      | _ => .error ("value isn't invalid ip range - " ++ s)
    else if s.contains '/' then
      match parseCIDR s with
      | none => .error ("value isn't invalid ip range - " ++ s)
      | some (base, len) =>
        match parseBlockList pIP parseCIDR rest with
        | .error e => .error e
        | .ok cs => .ok (.cidr base len :: cs)
    else
      match IPRangeWith pIP s s with
      | .error _ => .error ("value isn't invalid ip range - " ++ s)
      | .ok c =>
        match parseBlockList pIP parseCIDR rest with
        | .error e => .error e
        | .ok cs => .ok (c :: cs)

/-- The password block of `toUser` (`part_000:271-278`): a nil (or
absent) column leaves the secret empty, a string is the secret, any
other dynamic type is a mapping error. -/
def extractPassword (name : String) (data : List (String × Value)) :
    Except String String :=
  match data.lookup name with
  | none => .ok ""
  | some .null => .ok ""
  | some (.str s) => .ok s
  | some _ => .error ("value of '" ++ name ++ "' isn't string")

/-- The lock-timestamp block of `toUser` (`part_000:280-302`): nil or
absent leaves the zero time; non-empty byte/string values go through
`parseTime` and a zero result is a mapping error; a `time.Time` value
is taken as-is; any other type is a mapping error. -/
def extractLockedAt (tparse : String → String → Option Int)
    (layout name : String) (data : List (String × Value)) :
    Except String (Option Int) :=
  match data.lookup name with
  | none => .ok none
  | some .null => .ok none
  | some (.bytes v) =>
    if v = "" then .ok none
    else
      match parseTime tparse layout v with
      | none => .error ("value of '" ++ name ++ "' isn't time")
      | some t => .ok (some t)
  | some (.str v) =>
    if v = "" then .ok none
    else
      match parseTime tparse layout v with
      | none => .error ("value of '" ++ name ++ "' isn't time")
      | some t => .ok (some t)
  | some (.time t) => .ok t
  | some (.other _) => .error ("value of '" ++ name ++ "' isn't time")

/-- The block-list block of `toUser` (`part_000:304-348`): nil or
absent means no restriction; a string must be a JSON array of strings,
whose entries `parseBlockList` turns into checkers; a non-string value
or undecodable JSON is a mapping error. -/
def extractBlockList (ext : Ext) (name : String)
    (data : List (String × Value)) : Except String (List IPChecker) :=
  match data.lookup name with
  | none => .ok []
  | some .null => .ok []
  | some (.str s) =>
    match ext.jsonStringList s with
    | none => .error ("value of '" ++ name ++ "' isn't []string")
    | some ipList => parseBlockList ext.parseIP ext.parseCIDR ipList
  | some _ => .error ("value of '" ++ name ++ "' isn't string")

/-- `dbUserHandler.toUser` (`part_000:270-358`): run the three
extraction blocks in the order of the source; the first mapping error
aborts; on success the `UserImpl` captures the row map `data`
verbatim together with the handler's configured lock duration. -/
def DbUserHandler.toUser (ext : Ext) (ah : DbUserHandler)
    (user : String) (data : List (String × Value)) :
    Except String UserImpl :=
  match extractPassword ah.passwordName data with
  | .error e => .error e
  | .ok password =>
    match extractLockedAt ext.timeParse ah.lockedTimeLayout
        ah.lockedFieldName data with
    | .error e => .error e
    | .ok lockedAt =>
      match extractBlockList ext ah.blockIPList data with
      | .error e => .error e
      | .ok blockList =>
        .ok { name := user
              password := password
              lockedAt := lockedAt
              lockedTimeExpires := ah.lockedTimeExpires
              blockIPList := blockList
              data := data }

/-- The verification outcomes of `SigningMethod.Verify`: success is
`none`; `sigInvalid` is the sentinel `ErrSignatureInvalid`;
any other verification error carries its message. -/
inductive VerErr where
  | sigInvalid
  | failed (msg : String)
deriving DecidableEq, Repr

/-- `userAuthenticationHandler.Auth` (`auth_handler.go:65-102`).
The store lookup (`userHandler.Read`) and the signing method's
`Verify` are external collaborators passed as functions; their errors
are foreign values, wrapped as `storeError`/`verifyFailed` so they are
distinct from every sentinel this code compares against. The state
machine: empty username, store lookup (errors propagate), zero rows,
more than one row, `CanUse` (its error propagates; a false result with
nil error falls back to the generic "user is inused" error), empty
stored secret, verification (the `ErrSignatureInvalid` sentinel maps
to `ErrPasswordNotMatch`), then the record's data. -/
def Auth (read : String → String → Except String (List UserImpl))
    (verify : String → String → List Nat → Option VerErr)
    (secretKey : List Nat) (pIP : String → Option IP) (now : Int)
    (address username password : String) :
    Except AuthError (List (String × Value)) :=
  if username = "" then .error .usernameEmpty
  else
    match read username address with
    | .error e => .error (.storeError e)
    | .ok users =>
      match users with
      | [] => .error .userNotFound
      | [u] =>
        match u.canUse pIP now address with
        | (_, some e) => .error e
        | (ok, none) =>
          if !ok then .error .userInused
          else if u.password = "" then .error .passwordEmpty
          else
            match verify password u.password secretKey with
            | some .sigInvalid => .error .passwordNotMatch
            | some (.failed m) => .error (.verifyFailed m)
            | none => .ok u.dataOf
      | _ :: _ :: _ => .error .mutiUsers

/-! ### Concrete fixtures

Instantiations of the external collaborators and sample records, used
by witnesses and counterexamples. `pIPten` parses exactly the address
`10.0.0.1`; `verifyEq` is a signing method accepting a plaintext equal
to the stored secret. Durations and times are in nanoseconds:
`1800000000000 = 30m`, `3600000000000 = 1h`, `7200000000000 = 2h`. -/

def pIPnone : String → Option IP := fun _ => none

def pIPten : String → Option IP :=
  fun s => if s = "10.0.0.1" then some (.v4 167772161) else none

def verifyEq : String → String → List Nat → Option VerErr :=
  fun p e _ => if p = e then none else some .sigInvalid

/-- A permanently locked record: `lockedAt` set, zero expiry. -/
def uPerm : UserImpl :=
  { name := "perm", password := "pw", lockedAt := some 0,
    lockedTimeExpires := 0, blockIPList := [], data := [] }

/-- A temporarily locked record: `lockedAt = 0`, expiry `100`. -/
def uTemp : UserImpl :=
  { name := "temp", password := "pw", lockedAt := some 0,
    lockedTimeExpires := 100, blockIPList := [], data := [] }

/-- A record whose lock has a positive expiry but whose block list is
the network `192.168.0.0/24`, matching no caller used below. -/
def uBlocked : UserImpl :=
  { name := "blocked", password := "pw", lockedAt := some 0,
    lockedTimeExpires := 1, blockIPList := [.cidr 3232235520 24],
    data := [] }

/-- A permanently locked record (zero expiry) that also carries a
non-empty block list. -/
def uPermBlocked : UserImpl :=
  { name := "permblocked", password := "pw", lockedAt := some 0,
    lockedTimeExpires := 0, blockIPList := [.cidr 3232235520 24],
    data := [] }

/-- The "carol" scenario record: `lockedAt = 0`, expiry 30 minutes. -/
def carolU : UserImpl :=
  { name := "carol", password := "s3cret", lockedAt := some 0,
    lockedTimeExpires := 1800000000000, blockIPList := [],
    data := [("password", Value.str "s3cret")] }

/-- Like `carolU` with a two-hour expiry. -/
def carol2U : UserImpl :=
  { name := "carol", password := "s3cret", lockedAt := some 0,
    lockedTimeExpires := 7200000000000, blockIPList := [],
    data := [("password", Value.str "s3cret")] }

/-- A store whose lookup always returns the single row of `carolU`. -/
def readCarol : String → String → Except String (List UserImpl) :=
  fun _ _ => .ok [carolU]

/-- A store whose lookup always returns the single row of `carol2U`. -/
def readCarol2 : String → String → Except String (List UserImpl) :=
  fun _ _ => .ok [carol2U]

/-- A row mapping holding a stored secret and one more attribute. -/
def row10 : List (String × Value) :=
  [("password", Value.str "s3cret"), ("role", Value.str "admin")]

/-- External collaborators that parse nothing — sufficient for rows
without lock or block-list columns. -/
def ext10 : Ext :=
  { parseIP := fun _ => none, parseCIDR := fun _ => none,
    jsonStringList := fun _ => none, timeParse := fun _ _ => none }

/-- A handler configuration with the default column names. -/
def h10 : DbUserHandler :=
  { querySQL := "SELECT * FROM users WHERE username = ?",
    lockSQL := "", passwordName := "password",
    blockIPList := "block_list", lockedFieldName := "locked_at",
    lockedTimeExpires := 0, lockedTimeLayout := "" }

/-- The record `h10.toUser` builds from `row10` for user "dave". -/
def u10 : UserImpl :=
  { name := "dave", password := "s3cret", lockedAt := none,
    lockedTimeExpires := 0, blockIPList := [], data := row10 }

/-- A store whose lookup always returns the single row of `u10`. -/
def read10 : String → String → Except String (List UserImpl) :=
  fun _ _ => .ok [u10]

end SSO

namespace SSO

/-! ### Claims -/

/-- C1: the claim states that the range checker contains `ip` iff
`start ≤ ip ∧ ip ≤ end`, and in particular contains nothing when
`start > end`. The source (`part_000:112`) instead tests
`start <= v || v <= end`: the reversed range `10-5` contains the
probe `12`, and the well-ordered range `5-10` contains the probe `3`,
both of which the claimed conjunction excludes. -/
theorem C1_range_contains_or_bug :
    IPChecker.contains (.range 10 5) (.v4 12) = true ∧
    IPChecker.contains (.range 5 10) (.v4 3) = true ∧
    ¬ ((10 : Nat) ≤ 12 ∧ (12 : Nat) ≤ 5) ∧ ¬ ((5 : Nat) ≤ 3) := by
  decide

/-- C2 counterexample: a permanently locked record (`uPerm`, zero
expiry) and a temporarily locked record (`uTemp`, positive expiry,
probed before `lockedAt + expiry`) fail with the *same* error value
`ErrUserLocked`, so the two failure kinds are not distinguishable as
the claim states. -/
theorem C2_single_locked_kind_counterexample :
    UserImpl.canUse pIPnone uPerm 50 "addr" = (false, some .userLocked) ∧
    UserImpl.canUse pIPnone uTemp 50 "addr" = (false, some .userLocked) ∧
    (UserImpl.canUse pIPnone uPerm 50 "addr").2
      = (UserImpl.canUse pIPnone uTemp 50 "addr").2 := by
  decide

/-- C2 amended: for every record with `lockedAt` set whose IP step
passes (empty block list), a zero expiry fails with `ErrUserLocked`,
and a non-zero expiry with the current time before
`lockedAt + expiry` fails with the same single kind `ErrUserLocked`;
the code never produces distinct permanent/temporary lock kinds. -/
theorem C2_locked_single_kind (pIP : String → Option IP) (u : UserImpl)
    (now t : Int) (addr : String)
    (hb : u.blockIPList = []) (hl : u.lockedAt = some t) :
    (u.lockedTimeExpires = 0 →
      u.canUse pIP now addr = (false, some .userLocked)) ∧
    (u.lockedTimeExpires ≠ 0 → now < t + u.lockedTimeExpires →
      u.canUse pIP now addr = (false, some .userLocked)) := by
  have hIp : u.ipCheck pIP addr = none := by
    simp [UserImpl.ipCheck, hb]
  constructor
  · intro h0
    simp [UserImpl.canUse, hIp, hl, h0]
  · intro h0 hlt
    simp [UserImpl.canUse, hIp, hl, h0, hlt]

/-- C2 witness: `C2_locked_single_kind` applied to the two concrete
locked records of the counterexample. -/
theorem C2_locked_single_kind_witness :
    UserImpl.canUse pIPnone uPerm 50 "addr" = (false, some .userLocked) ∧
    UserImpl.canUse pIPnone uTemp 50 "addr" = (false, some .userLocked) := by
  constructor
  · exact (C2_locked_single_kind pIPnone uPerm 50 0 "addr" rfl rfl).1 rfl
  · exact (C2_locked_single_kind pIPnone uTemp 50 0 "addr" rfl rfl).2
      (by decide) (by decide)

/-- C3 counterexample: with `lockedAt = now − 1h` and a 30-minute
expiry, `now` is *after* `lockedAt + expiry`, so the lock is already
expired: `Auth` does not return the locked failure but proceeds and,
with a matching password, succeeds. -/
theorem C3_lock_already_expired_counterexample :
    Auth readCarol verifyEq [] pIPnone 3600000000000 "10.0.0.1"
      "carol" "s3cret" = .ok [("password", Value.str "s3cret")] := by
  rfl

/-- C3 amended: in the carol scenario (`lockedAt = now − 1h`, expiry
30m) the lock has expired, `CanUse` succeeds, and `Auth` returns the
claims on a matching password; the locked failure — the single kind
`ErrUserLocked` — is returned only while `now < lockedAt + expiry`,
e.g. with a two-hour expiry. -/
theorem C3_carol_lock_expired :
    Auth readCarol verifyEq [] pIPnone 3600000000000 "10.0.0.1"
      "carol" "s3cret" = .ok [("password", Value.str "s3cret")] ∧
    UserImpl.canUse pIPnone carolU 3600000000000 "10.0.0.1"
      = (true, none) ∧
    Auth readCarol2 verifyEq [] pIPnone 3600000000000 "10.0.0.1"
      "carol" "s3cret" = .error .userLocked := by
  refine ⟨by rfl, by decide, by rfl⟩

/-- C4 counterexample: `uBlocked` has `lockedAt = 0` and expiry `1`,
and is probed at `now = 5 ≥ lockedAt + expiry`, yet the check fails —
with `IPBlocked` — because its non-empty block list (192.168.0.0/24)
does not contain the caller `10.0.0.1`. The claimed equivalence
therefore does not hold for every record with a set lock. -/
theorem C4_blocklist_defeats_expired_lock :
    UserImpl.canUse pIPten uBlocked 5 "10.0.0.1"
      = (false, some .userIPBlocked) ∧ (0 : Int) + 1 ≤ 5 := by
  decide

/-- C4 amended: for every record with `lockedAt` set, with a positive
expiry and the IP step passing (empty block list) the check succeeds
iff `lockedAt + expiry ≤ now`; with a zero expiry it never succeeds at
any current time, with or without a block list. -/
theorem C4_lock_boundary (pIP : String → Option IP) (u : UserImpl)
    (now t : Int) (addr : String) (hl : u.lockedAt = some t) :
    (u.blockIPList = [] → 0 < u.lockedTimeExpires →
      (u.canUse pIP now addr = (true, none) ↔
        t + u.lockedTimeExpires ≤ now)) ∧
    (u.lockedTimeExpires = 0 → u.canUse pIP now addr ≠ (true, none)) := by
  constructor
  · intro hb hpos
    have hIp : u.ipCheck pIP addr = none := by
      simp [UserImpl.ipCheck, hb]
    have h0 : u.lockedTimeExpires ≠ 0 := by omega
    by_cases hlt : now < t + u.lockedTimeExpires
    · simp [UserImpl.canUse, hIp, hl, h0, hlt]
    · simp [UserImpl.canUse, hIp, hl, h0, hlt]
      omega
  · intro h0
    unfold UserImpl.canUse
    cases hI : u.ipCheck pIP addr with
    | some e => simp
    | none => simp [hl, h0]

/-- C4 witness: `C4_lock_boundary` at the temporarily locked record
past its expiry, and — for the zero-expiry conjunct — at a
permanently locked record carrying a non-empty block list. -/
theorem C4_lock_boundary_witness :
    (UserImpl.canUse pIPnone uTemp 150 "addr" = (true, none) ↔
      (0 : Int) + 100 ≤ 150) ∧
    UserImpl.canUse pIPten uPermBlocked 5 "10.0.0.1" ≠ (true, none) := by
  constructor
  · exact (C4_lock_boundary pIPnone uTemp 150 0 "addr" rfl).1 rfl (by decide)
  · exact (C4_lock_boundary pIPten uPermBlocked 5 0 "10.0.0.1" rfl).2 rfl

/-- C5: with an empty block list the IP step produces no failure for
any caller address (so `CanUse` can only fail with the locked error),
and with a non-empty block list, for a caller address that parses, the
IP step fails with `IPBlocked` exactly when no entry of the list
contains the parsed address. -/
theorem C5_blocklist_is_allowlist (pIP : String → Option IP)
    (u : UserImpl) (now : Int) (addr : String) :
    (u.blockIPList = [] →
      u.ipCheck pIP addr = none ∧
      ((u.canUse pIP now addr).2 = none ∨
       (u.canUse pIP now addr).2 = some .userLocked)) ∧
    (u.blockIPList ≠ [] → ∀ ip, pIP addr = some ip →
      (u.ipCheck pIP addr = some .userIPBlocked ↔
        ∀ c ∈ u.blockIPList, c.contains ip = false)) := by
  constructor
  · intro hb
    have hIp : u.ipCheck pIP addr = none := by
      simp [UserImpl.ipCheck, hb]
    refine ⟨hIp, ?_⟩
    unfold UserImpl.canUse
    rw [hIp]
    cases u.lockedAt with
    | none => simp
    | some t =>
      by_cases h0 : u.lockedTimeExpires = 0
      · simp [h0]
      · by_cases hlt : now < t + u.lockedTimeExpires <;> simp [h0, hlt]
  · intro hb ip hip
    have hne : u.blockIPList.isEmpty = false := by
      simpa [List.isEmpty_iff] using hb
    have hstep : u.ipCheck pIP addr =
        (if u.blockIPList.any (fun c => c.contains ip) then none
         else some .userIPBlocked) := by
      simp [UserImpl.ipCheck, hne, hip]
    rw [hstep]
    by_cases hany : u.blockIPList.any (fun c => c.contains ip) = true
    · rw [if_pos hany]
      rw [List.any_eq_true] at hany
      obtain ⟨c, hc, hcc⟩ := hany
      constructor
      · intro h
        exact absurd h (by simp)
      · intro hall
        exact absurd (hall c hc) (by simp [hcc])
    · rw [if_neg hany]
      rw [List.any_eq_true] at hany
      push_neg at hany
      simp only [Bool.not_eq_true] at hany
      exact ⟨fun _ => hany, fun _ => rfl⟩

/-- C5 witness: `C5_blocklist_is_allowlist` at a record with an empty
block list and at `uBlocked` with its parsed caller address. -/
theorem C5_blocklist_is_allowlist_witness :
    UserImpl.ipCheck pIPnone uTemp "addr" = none ∧
    (UserImpl.ipCheck pIPten uBlocked "10.0.0.1"
        = some .userIPBlocked ↔
      ∀ c ∈ uBlocked.blockIPList,
        c.contains (.v4 167772161) = false) := by
  constructor
  · exact ((C5_blocklist_is_allowlist pIPnone uTemp 0 "addr").1 rfl).1
  · exact (C5_blocklist_is_allowlist pIPten uBlocked 0 "10.0.0.1").2
      (by decide) (.v4 167772161) (by decide)

/-- C6: for a non-empty username, a lookup yielding zero records makes
`Auth` return `UserNotFound`, and a lookup yielding two or more
records makes it return `AmbiguousUser` (`ErrMutiUsers`), for every
verifier — so regardless of whether any password would have
matched. -/
theorem C6_zero_or_multi
    (read : String → String → Except String (List UserImpl))
    (verify : String → String → List Nat → Option VerErr)
    (key : List Nat) (pIP : String → Option IP) (now : Int)
    (addr username pw : String) (hne : username ≠ "") :
    (read username addr = .ok [] →
      Auth read verify key pIP now addr username pw
        = .error .userNotFound) ∧
    (∀ us, read username addr = .ok us → 2 ≤ us.length →
      Auth read verify key pIP now addr username pw
        = .error .mutiUsers) := by
  constructor
  · intro h
    simp [Auth, hne, h]
  · intro us h hlen
    rcases us with _ | ⟨u1, _ | ⟨u2, rest⟩⟩
    · simp at hlen
    · simp at hlen
    · simp [Auth, hne, h]

/-- C6 witness: `C6_zero_or_multi` at a store with no rows for "bob"
and at a store with two rows for "bob". -/
theorem C6_zero_or_multi_witness :
    Auth (fun _ _ => .ok []) verifyEq [] pIPnone 0 "a" "bob" "pw"
      = .error .userNotFound ∧
    Auth (fun _ _ => .ok [carolU, carolU]) verifyEq [] pIPnone 0 "a"
      "bob" "pw" = .error .mutiUsers := by
  constructor
  · exact (C6_zero_or_multi (fun _ _ => .ok []) verifyEq [] pIPnone 0
      "a" "bob" "pw" (by decide)).1 rfl
  · exact (C6_zero_or_multi (fun _ _ => .ok [carolU, carolU]) verifyEq
      [] pIPnone 0 "a" "bob" "pw" (by decide)).2 [carolU, carolU] rfl
      (by decide)

/-- C7: with an empty username `Auth` returns `UsernameEmpty`, and its
result does not depend on the backing store, the verifier, or any
other input — the user handler is never consulted. -/
theorem C7_empty_username_no_store
    (read read' : String → String → Except String (List UserImpl))
    (verify verify' : String → String → List Nat → Option VerErr)
    (key key' : List Nat) (pIP pIP' : String → Option IP)
    (now now' : Int) (addr addr' pw pw' : String) :
    Auth read verify key pIP now addr "" pw = .error .usernameEmpty ∧
    Auth read verify key pIP now addr "" pw
      = Auth read' verify' key' pIP' now' addr' "" pw' := by
  constructor <;> simp [Auth]

/-- One placeholder scan step: a doubled placeholder collapses to one
literal placeholder character without touching the counter. -/
theorem rpAux_qq (i : Nat) (cs : List Char) :
    replacePlaceholdersAux i ('?' :: '?' :: cs)
      = '?' :: replacePlaceholdersAux i cs := by
  simp [replacePlaceholdersAux]

/-- One placeholder scan step: a character other than the placeholder
is copied verbatim. -/
theorem rpAux_ne (i : Nat) (c : Char) (cs : List Char) (h : c ≠ '?') :
    replacePlaceholdersAux i (c :: cs)
      = c :: replacePlaceholdersAux i cs := by
  rw [replacePlaceholdersAux.eq_def]
  split <;> rename_i heq
  · exact absurd heq (by simp)
  · injection heq with h1 h2
    exact absurd h1 h
  · injection heq with h1 h2
    exact absurd h1 h
  · injection heq with h1 h2
    rw [← h1, ← h2]

/-- One placeholder scan step: a single placeholder (not followed by
another) becomes `$(i+1)` and increments the counter. -/
theorem rpAux_q (i : Nat) (cs : List Char) (h : cs.head? ≠ some '?') :
    replacePlaceholdersAux i ('?' :: cs)
      = dollar (i + 1) ++ replacePlaceholdersAux (i + 1) cs := by
  rw [replacePlaceholdersAux.eq_def]
  split <;> rename_i heq
  · exact absurd heq (by simp)
  · injection heq with h1 h2
    rw [h2] at h
    simp at h
  · injection heq with h1 h2
    rw [← h2]
  · rename_i hg heq2
    injection heq with h1 h2
    exact (heq2 h1.symm).elim

/-- Across any placeholder-free run `a`, a doubled placeholder
collapses to one literal and consumes no sequence number. -/
theorem rpAux_copy_qq (i : Nat) (a b : List Char)
    (ha : ∀ c ∈ a, c ≠ '?') :
    replacePlaceholdersAux i (a ++ '?' :: '?' :: b)
      = a ++ '?' :: replacePlaceholdersAux i b := by
  induction a with
  | nil => simpa using rpAux_qq i b
  | cons c a ih =>
    have hc : c ≠ '?' := ha c (by simp)
    have ha' : ∀ x ∈ a, x ≠ '?' := fun x hx => ha x (by simp [hx])
    simp only [List.cons_append]
    rw [rpAux_ne i c _ hc, ih ha']

/-- Across any placeholder-free run `a`, a single placeholder becomes
the next sequence number, and scanning continues with the counter
incremented. -/
theorem rpAux_number_q (i : Nat) (a b : List Char)
    (ha : ∀ c ∈ a, c ≠ '?') (hb : b.head? ≠ some '?') :
    replacePlaceholdersAux i (a ++ '?' :: b)
      = a ++ dollar (i + 1) ++ replacePlaceholdersAux (i + 1) b := by
  induction a with
  | nil => simpa using rpAux_q i b hb
  | cons c a ih =>
    have hc : c ≠ '?' := ha c (by simp)
    have ha' : ∀ x ∈ a, x ≠ '?' := fun x hx => ha x (by simp [hx])
    simp only [List.cons_append]
    rw [rpAux_ne i c _ hc, ih ha']

/-- C8: the worked example rewrites as the claim states, and in
general a single placeholder after a placeholder-free run becomes the
next number `$(i+1)` in left-to-right order, while a doubled
placeholder collapses to one literal placeholder consuming no
number. -/
theorem C8_placeholder_rewrite :
    ReplacePlaceholders "WHERE x=? AND y=??" = "WHERE x=$1 AND y=?" ∧
    (∀ i a b, (∀ c ∈ a, c ≠ '?') →
      replacePlaceholdersAux i (a ++ '?' :: '?' :: b)
        = a ++ '?' :: replacePlaceholdersAux i b) ∧
    (∀ i a b, (∀ c ∈ a, c ≠ '?') → b.head? ≠ some '?' →
      replacePlaceholdersAux i (a ++ '?' :: b)
        = a ++ dollar (i + 1) ++ replacePlaceholdersAux (i + 1) b) :=
  ⟨by decide, rpAux_copy_qq, rpAux_number_q⟩

/-- C8 witness: `C8_placeholder_rewrite` applied at concrete
placeholder-free runs. -/
theorem C8_placeholder_rewrite_witness :
    replacePlaceholdersAux 0 (['a'] ++ '?' :: '?' :: ['b'])
      = ['a'] ++ '?' :: replacePlaceholdersAux 0 ['b'] ∧
    replacePlaceholdersAux 0 (['a'] ++ '?' :: ['b'])
      = ['a'] ++ dollar (0 + 1) ++ replacePlaceholdersAux (0 + 1) ['b'] := by
  constructor
  · exact C8_placeholder_rewrite.2.1 0 ['a'] ['b'] (by decide)
  · exact C8_placeholder_rewrite.2.2 0 ['a'] ['b'] (by decide) (by decide)

/-- The IP step produces one of exactly three outcomes: no failure,
the address-invalid error, or `ErrUserIPBlocked`. -/
theorem ipCheck_shape (pIP : String → Option IP) (u : UserImpl)
    (addr : String) :
    u.ipCheck pIP addr = none ∨
    u.ipCheck pIP addr = some (.clientAddressInvalid addr) ∨
    u.ipCheck pIP addr = some .userIPBlocked := by
  unfold UserImpl.ipCheck
  by_cases he : u.blockIPList.isEmpty
  · simp [he]
  · simp only [he, Bool.false_eq_true, if_false]
    cases pIP addr with
    | none => simp
    | some ip =>
      by_cases hany : u.blockIPList.any (fun c => c.contains ip) <;>
        simp [hany]

/-- `CanUse` either succeeds as `(true, nil)` or fails as
`(false, e)` with a non-nil error `e` distinct from the generic
"user is inused" value. -/
theorem canUse_cases (pIP : String → Option IP) (u : UserImpl)
    (now : Int) (addr : String) :
    u.canUse pIP now addr = (true, none) ∨
    ∃ e, u.canUse pIP now addr = (false, some e) ∧ e ≠ .userInused := by
  unfold UserImpl.canUse
  rcases ipCheck_shape pIP u addr with h | h | h <;> rw [h]
  · cases u.lockedAt with
    | none => left; rfl
    | some t =>
      by_cases h0 : u.lockedTimeExpires = 0
      · right; exact ⟨.userLocked, by simp [h0], by simp⟩
      · by_cases hlt : now < t + u.lockedTimeExpires
        · right; exact ⟨.userLocked, by simp [h0, hlt], by simp⟩
        · left; simp [h0, hlt]
  · right; exact ⟨_, rfl, by simp⟩
  · right; exact ⟨_, rfl, by simp⟩

/-- C9: `CanUse` never returns `(false, nil)` — the boolean is `true`
exactly when the error is nil — and consequently `Auth` never reaches
the fallback branch returning the generic "user is inused" error. -/
theorem C9_no_false_nil :
    (∀ (pIP : String → Option IP) (u : UserImpl) (now : Int)
      (addr : String),
      ((u.canUse pIP now addr).1 = true ↔
        (u.canUse pIP now addr).2 = none)) ∧
    (∀ (read : String → String → Except String (List UserImpl))
      (verify : String → String → List Nat → Option VerErr)
      (key : List Nat) (pIP : String → Option IP) (now : Int)
      (addr un pw : String),
      Auth read verify key pIP now addr un pw ≠ .error .userInused) := by
  constructor
  · intro pIP u now addr
    rcases canUse_cases pIP u now addr with h | ⟨e, h, he⟩ <;> simp [h]
  · intro read verify key pIP now addr un pw
    by_cases hun : un = ""
    · simp [Auth, hun]
    · unfold Auth
      rw [if_neg hun]
      cases hr : read un addr with
      | error e => simp
      | ok users =>
        rcases users with _ | ⟨u, _ | ⟨u2, rest⟩⟩
        · simp
        · rcases canUse_cases pIP u now addr with h | ⟨e, h, hne⟩
          · by_cases hp : u.password = ""
            · simp [h, hp]
            · cases hv : verify pw u.password key with
              | none => simp [h, hp, hv]
              | some ve => cases ve <;> simp [h, hp, hv]
          · simp [h, hne]
        · simp

/-- C9 witness: `C9_no_false_nil` at a concrete record and a concrete
`Auth` call. -/
theorem C9_no_false_nil_witness :
    ((UserImpl.canUse pIPnone uTemp 50 "addr").1 = true ↔
      (UserImpl.canUse pIPnone uTemp 50 "addr").2 = none) ∧
    Auth readCarol verifyEq [] pIPnone 0 "x" "carol" "pw"
      ≠ .error .userInused :=
  ⟨C9_no_false_nil.1 pIPnone uTemp 50 "addr",
   C9_no_false_nil.2 readCarol verifyEq [] pIPnone 0 "x" "carol" "pw"⟩

/-- A stored secret extracted as a non-empty string must have come
from the row under the configured password column name. -/
theorem extractPassword_lookup (name : String)
    (data : List (String × Value)) (pw : String)
    (h : extractPassword name data = .ok pw) (hne : pw ≠ "") :
    data.lookup name = some (.str pw) := by
  unfold extractPassword at h
  split at h <;> rename_i heq
  · injection h with h1
    exact absurd h1.symm hne
  · injection h with h1
    exact absurd h1.symm hne
  · injection h with h1
    rw [heq, h1]
  · exact absurd h (by simp)

/-- C10: a successful `Auth` call over a record `toUser` built from a
row returns exactly that row mapping — nothing removed — and the row
still holds the stored secret under the configured password column
name. -/
theorem C10_claims_verbatim (ext : Ext) (ah : DbUserHandler)
    (userN : String) (row : List (String × Value)) (u : UserImpl)
    (read : String → String → Except String (List UserImpl))
    (verify : String → String → List Nat → Option VerErr)
    (key : List Nat) (pIP : String → Option IP) (now : Int)
    (addr un pw : String) (m : List (String × Value))
    (hu : ah.toUser ext userN row = .ok u)
    (hr : read un addr = .ok [u])
    (ha : Auth read verify key pIP now addr un pw = .ok m) :
    m = row ∧ row.lookup ah.passwordName = some (.str u.password) ∧
      u.password ≠ "" := by
  have hAuth : m = u.data ∧ u.password ≠ "" := by
    unfold Auth at ha
    by_cases hun : un = ""
    · rw [if_pos hun] at ha
      exact absurd ha (by simp)
    · rw [if_neg hun, hr] at ha
      rcases canUse_cases pIP u now addr with h | ⟨e, h, hne⟩
      · by_cases hp : u.password = ""
        · simp [h, hp] at ha
        · cases hv : verify pw u.password key with
          | none =>
            simp [h, hp, hv, UserImpl.dataOf] at ha
            exact ⟨ha.symm, hp⟩
          | some ve => cases ve <;> simp [h, hp, hv] at ha
      · simp [h] at ha
  unfold DbUserHandler.toUser at hu
  cases hP : extractPassword ah.passwordName row <;> rw [hP] at hu
  · exact absurd hu (by simp)
  · rename_i pwv
    cases hL : extractLockedAt ext.timeParse ah.lockedTimeLayout
        ah.lockedFieldName row <;> rw [hL] at hu
    · exact absurd hu (by simp)
    · rename_i la
      cases hB : extractBlockList ext ah.blockIPList row <;> rw [hB] at hu
      · exact absurd hu (by simp)
      · rename_i bl
        have hu2 : Except.ok (⟨userN, pwv, la, ah.lockedTimeExpires,
            bl, row⟩ : UserImpl) = Except.ok (ε := String) u := hu
        injection hu2 with h
        obtain ⟨hm, hp⟩ := hAuth
        have hdata : u.data = row := by rw [← h]
        have hpw : u.password = pwv := by rw [← h]
        refine ⟨by rw [hm, hdata], ?_, hp⟩
        rw [hpw] at hp ⊢
        exact extractPassword_lookup _ _ _ hP hp

/-- C10 witness: `C10_claims_verbatim` at the concrete row `row10`,
the record `toUser` builds from it, and a successful `Auth` call. -/
theorem C10_claims_verbatim_witness :
    row10 = row10 ∧
    row10.lookup h10.passwordName = some (.str u10.password) ∧
    u10.password ≠ "" :=
  C10_claims_verbatim ext10 h10 "dave" row10 u10 read10 verifyEq []
    pIPnone 0 "1.2.3.4" "dave" "s3cret" row10 (by rfl) rfl (by rfl)

end SSO
